import Mathlib

/-!
# LED matrix plane encoder and render loop (`firmware/src/leds.cpp`)

A shallow embedding of `leds_set_framebuffer`, `leds_render` and the
`brightnessPhaseDelays` table, together with the properties of the word
framing, the row-control words, the phase scheduler and the delay ladder.

The geometry macros of `leds.h` (`ROW_COUNT`, `COL_COUNT`, `ROW_MODULES`,
`COL_MODULES`, `COLOR_BITS`, `NS_PER_CYCLE`) are parameters, collected in
`Config`.  Memory is modelled as maps from indices to values: the raw frame is
a map from byte offsets to bytes, `ledBuffer` a map from (plane, word index) to
32-bit words.
-/

namespace PicoLedMatrix

/-- The compile-time constants of `leds.h`, taken as parameters. -/
structure Config where
  ROW_COUNT : Nat
  COL_COUNT : Nat
  ROW_MODULES : Nat
  COL_MODULES : Nat
  COLOR_BITS : Nat
  NS_PER_CYCLE : Nat

/-- The three PIO state machines that `leds_render` feeds. -/
inductive Channel where
  | pusher_sm
  | row_sm
  | delay_sm
  deriving DecidableEq

/-- The encoded buffer `uint32_t ledBuffer[8][ROW_COUNT * (COL_MODULES + 1)]`,
as a map from plane and word index to the stored word. -/
abbrev LedBuffer := Nat → Nat → Nat

/-- The globals of `leds.cpp` that the encoder and the render loop touch, and
the words enqueued so far on the PIO TX FIFOs (oldest first). -/
structure State where
  brightnessPhase : Nat
  framebuffer : Nat → Nat
  ledBuffer : LedBuffer
  ledBufferReady : Bool
  fifo : List (Channel × Nat)

/-- The globals as initialised at program start. -/
def initialState : State :=
  { brightnessPhase := 0
    framebuffer := fun _ => 0
    ledBuffer := fun _ _ => 0
    ledBufferReady := false
    fifo := [] }

/-! ## Delay table -/

/-- The macro `#define NS_TO_DELAY(ns) ns / NS_PER_CYCLE`. -/
def NS_TO_DELAY (cfg : Config) (ns : Nat) : Nat := ns / cfg.NS_PER_CYCLE

/-- The table `uint32_t brightnessPhaseDelays[COLOR_BITS]`. -/
def brightnessPhaseDelays (cfg : Config) : List Nat :=
  [ NS_TO_DELAY cfg 50,
    NS_TO_DELAY cfg 100,
    NS_TO_DELAY cfg 200,
    NS_TO_DELAY cfg 500,
    NS_TO_DELAY cfg 1500,
    NS_TO_DELAY cfg 6000,
    NS_TO_DELAY cfg 20000,
    NS_TO_DELAY cfg 60000 ]

/-! ## Plane encoder: `leds_set_framebuffer` -/

/-- The assignment `ledBuffer[bi][idx] = v`. -/
def writeWord (lb : LedBuffer) (bi idx v : Nat) : LedBuffer :=
  fun p i => if p = bi ∧ i = idx then v else lb p i

/-- One iteration of the loop `for (int x = 0; x < 20; x++)`: the optional
placeholder shift, then the pixel bit shifted in from the top. -/
def sampleStep (buffer : Nat → Nat) (bitPosition : Nat) (bufferXOffset : Int)
    (sample x : Nat) : Nat :=
  let sample := if x = 0 ∨ x = 6 ∨ x = 13 then sample >>> 1 else sample
  let px := buffer (bufferXOffset + (x : Int)).toNat % 256
  let bit : Bool := (px &&& bitPosition) != 0
  (sample >>> 1) ||| (if bit then 0x80000000 else 0)

/-- The word stored for one column module: the body of the loop over
`xModule`, up to the store. -/
def pixelWord (cfg : Config) (buffer : Nat → Nat) (bitPosition : Nat)
    (bufferYOffset : Int) (xModule : Nat) : Nat :=
  let bufferXOffset : Int := bufferYOffset + (xModule : Int) * 20
  let sample := (List.range 20).foldl (sampleStep buffer bitPosition bufferXOffset) 0
  let sample := sample >>> 1
  let sample := sample >>> 8
  if (xModule : Int) = (cfg.COL_MODULES : Int) - 1 then sample ||| 0x80000000 else sample

/-- The row-control word `rowData` of the row `yModule * 20 + moduleY`. -/
def rowData (cfg : Config) (yModule moduleY : Nat) : Nat :=
  let y := yModule * 20 + moduleY
  let firstRow : Bool := decide ((y : Int) = (cfg.ROW_COUNT : Int) - 1)
  let rowPulses := 1
  let rowPulses := if moduleY = 0 then rowPulses + 1 else rowPulses
  let rowPulses :=
    if moduleY = 7 ∨ moduleY = 14 ∨ (moduleY = 0 ∧ yModule ≠ 0) then rowPulses + 1
    else rowPulses
  (if firstRow then 1 else 0) ||| (rowPulses <<< 1)

/-- The body of the loop over `moduleY`: the pixel words of one row, then its
row-control word. -/
def encodeRow (cfg : Config) (buffer : Nat → Nat) (bi yModule : Nat)
    (lb : LedBuffer) (moduleY : Nat) : LedBuffer :=
  let bitPosition := (1 <<< bi) % 256
  let y := yModule * 20 + moduleY
  let bufferYOffset : Int := ((cfg.ROW_COUNT : Int) - 1 - (y : Int)) * (cfg.COL_COUNT : Int)
  let outputYOffset := y * (cfg.COL_MODULES + 1)
  let lb := (List.range cfg.COL_MODULES).foldl
    (fun lb xModule =>
      writeWord lb bi (outputYOffset + xModule)
        (pixelWord cfg buffer bitPosition bufferYOffset xModule)) lb
  writeWord lb bi (outputYOffset + cfg.COL_MODULES) (rowData cfg yModule moduleY)

/-- The body of the loop over `yModule`: the twenty rows of one row module. -/
def encodeModule (cfg : Config) (buffer : Nat → Nat) (bi : Nat)
    (lb : LedBuffer) (yModule : Nat) : LedBuffer :=
  (List.range 20).foldl (encodeRow cfg buffer bi yModule) lb

/-- The body of the loop over `bi`: one bit-plane. -/
def encodePlane (cfg : Config) (buffer : Nat → Nat)
    (lb : LedBuffer) (bi : Nat) : LedBuffer :=
  (List.range cfg.ROW_MODULES).foldl (encodeModule cfg buffer bi) lb

/-- The function `void leds_set_framebuffer(uint8_t *buffer)`. -/
def leds_set_framebuffer (cfg : Config) (buffer : Nat → Nat) (s : State) : State :=
  { s with
    ledBuffer := (List.range 8).foldl (encodePlane cfg buffer) s.ledBuffer
    ledBufferReady := true
    framebuffer := fun i =>
      if i < cfg.ROW_COUNT * cfg.COL_COUNT then buffer i % 256 else s.framebuffer i }

/-! ## Render loop: `leds_render` -/

/-- The loop `for (uint8_t x = 0; x < COL_MODULES; x++)`, one iteration per
unit of fuel.  The counter is a `uint8_t`; `ptr` is the offset of `buffer`
from the start of the plane. -/
def pusherLoop (cfg : Config) (plane : Nat → Nat) :
    Nat → Nat → Nat → List (Channel × Nat) → Option (Nat × List (Channel × Nat))
  | 0, _, _, _ => none
  | fuel + 1, x, ptr, fifo =>
    if x < cfg.COL_MODULES then
      pusherLoop cfg plane fuel ((x + 1) % 256) (ptr + 1)
        (fifo ++ [(Channel.pusher_sm, plane ptr)])
    else some (ptr, fifo)

/-- The loop `for (uint8_t y = 0; y < ROW_COUNT; y++)`, one iteration per unit
of fuel; the inner loop runs with `innerFuel`. -/
def rowLoop (cfg : Config) (plane : Nat → Nat) (delayData innerFuel : Nat) :
    Nat → Nat → Nat → List (Channel × Nat) → Option (List (Channel × Nat))
  | 0, _, _, _ => none
  | fuel + 1, y, ptr, fifo =>
    if y < cfg.ROW_COUNT then
      match pusherLoop cfg plane innerFuel 0 ptr fifo with
      | none => none
      | some (ptr, fifo) =>
        rowLoop cfg plane delayData innerFuel fuel ((y + 1) % 256) (ptr + 1)
          (fifo ++ [(Channel.row_sm, plane ptr), (Channel.delay_sm, delayData)])
    else some fifo

/-- The function `void leds_render()`.  Every loop may run for `fuel`
iterations; `none` means that a loop did not finish within them. -/
def leds_render (cfg : Config) (fuel : Nat) (s : State) : Option State :=
  if !s.ledBufferReady then some s
  else
    let buffer := s.ledBuffer s.brightnessPhase
    let delayData := (brightnessPhaseDelays cfg).getD s.brightnessPhase 0
    match rowLoop cfg buffer delayData fuel fuel 0 0 s.fifo with
    | none => none
    | some fifo =>
      some { s with
        fifo := fifo
        brightnessPhase := ((s.brightnessPhase + 1) % cfg.COLOR_BITS) % 256 }

/-- The first `k` iterations of `while (true) { leds_render(); }` in `main2`. -/
def renderPasses (cfg : Config) (fuel : Nat) : Nat → State → Option State
  | 0, s => some s
  | k + 1, s =>
    match leds_render cfg fuel s with
    | none => none
    | some s1 => renderPasses cfg fuel k s1

/-! ## Vocabulary of the specification -/

/-- The bit of a pixel word that holds pixel `x` of its column group: the
pixels skip the stages before pixels 0, 6 and 13. -/
def stagePosition (x : Nat) : Nat :=
  if x < 6 then x + 1 else if x < 13 then x + 2 else x + 3

/-- The words one row sends, in order: its pixel words to the pixel channel,
its row-control word to the row channel, the delay to the delay channel. -/
def rowEntries (cfg : Config) (plane : Nat → Nat) (delayData y : Nat) :
    List (Channel × Nat) :=
  (List.range cfg.COL_MODULES).map
      (fun x => (Channel.pusher_sm, plane (y * (cfg.COL_MODULES + 1) + x)))
    ++ [(Channel.row_sm, plane (y * (cfg.COL_MODULES + 1) + cfg.COL_MODULES)),
        (Channel.delay_sm, delayData)]

/-- The words a full pass sends: the rows `0, 1, ..., ROW_COUNT - 1` in order. -/
def passEntries (cfg : Config) (plane : Nat → Nat) (delayData : Nat) :
    List (Channel × Nat) :=
  ((List.range cfg.ROW_COUNT).map (rowEntries cfg plane delayData)).flatten

/-- A small panel: two row modules and two column modules, 40 by 40 pixels. -/
def panel40 : Config :=
  { ROW_COUNT := 40, COL_COUNT := 40, ROW_MODULES := 2, COL_MODULES := 2,
    COLOR_BITS := 8, NS_PER_CYCLE := 1 }

/-- A raw frame with the value 255 in every pixel with an even offset. -/
def stripes : Nat → Nat := fun i => if i % 2 = 0 then 255 else 0

/-- The tested bit `px & bitPosition` of pixel `x` of a column group. -/
def pixelBit (buffer : Nat → Nat) (bitPosition : Nat) (bufferXOffset : Int) (x : Nat) : Bool :=
  (buffer (bufferXOffset + (x : Int)).toNat % 256 &&& bitPosition) != 0

/-- The word that the encoder stores at position `m` of output row `y` of
plane `bi`: a pixel word for `m < COL_MODULES`, the row-control word after. -/
def rowWord (cfg : Config) (buffer : Nat → Nat) (bi y m : Nat) : Nat :=
  if m < cfg.COL_MODULES then
    pixelWord cfg buffer ((1 <<< bi) % 256)
      (((cfg.ROW_COUNT : Int) - 1 - (y : Int)) * (cfg.COL_COUNT : Int)) m
  else rowData cfg (y / 20) (y % 20)

/-- A panel with 256 column modules: one more than a `uint8_t` counter reaches. -/
def widePanel : Config :=
  { ROW_COUNT := 20, COL_COUNT := 5120, ROW_MODULES := 1, COL_MODULES := 256,
    COLOR_BITS := 8, NS_PER_CYCLE := 1 }

/-- A panel with 260 rows: more than a `uint8_t` counter reaches. -/
def tallPanel : Config :=
  { ROW_COUNT := 260, COL_COUNT := 20, ROW_MODULES := 13, COL_MODULES := 1,
    COLOR_BITS := 8, NS_PER_CYCLE := 1 }

/-- The delay table with the cycle length 1, in nanoseconds. -/
def nanosecondDelays : Config :=
  { ROW_COUNT := 40, COL_COUNT := 40, ROW_MODULES := 2, COL_MODULES := 2,
    COLOR_BITS := 8, NS_PER_CYCLE := 1 }
/-! ## Lemmas -/

theorem testBit_topBit (c : Bool) (k : Nat) :
    (if c = true then 2147483648 else 0 : Nat).testBit k = (c && decide (k = 31)) := by
  have h : (2147483648 : Nat) = 2 ^ 31 := by norm_num
  cases c
  · simp
  · simp only [if_true, Bool.true_and, h, Nat.testBit_two_pow]
    by_cases hk : k = 31
    · simp [hk]
    · have : ¬ 31 = k := fun e => hk e.symm
      simp [hk, this]

theorem range20 : List.range 20 =
    [0, 1, 2, 3, 4, 5, 6, 7, 8, 9, 10, 11, 12, 13, 14, 15, 16, 17, 18, 19] := by decide

theorem sampleStep_eq (buffer : Nat → Nat) (bitPosition : Nat) (off : Int) (sample x : Nat) :
    sampleStep buffer bitPosition off sample x =
      ((if x = 0 ∨ x = 6 ∨ x = 13 then sample >>> 1 else sample) >>> 1) |||
        (if pixelBit buffer bitPosition off x = true then 2147483648 else 0) := rfl

theorem sample_testBit (buffer : Nat → Nat) (bitPosition : Nat) (off : Int) (j : Nat) :
    (((List.range 20).foldl (sampleStep buffer bitPosition off) 0) >>> 1 >>> 8).testBit j
      = (List.range 20).any
          (fun x => decide (stagePosition x = j) && pixelBit buffer bitPosition off x) := by
  simp only [range20, List.foldl_cons, List.foldl_nil, sampleStep_eq]
  by_cases hj : j < 32
  · interval_cases j <;>
      simp [Nat.testBit_shiftRight, Nat.testBit_or, testBit_topBit, stagePosition]
  · have e : ∀ c : Nat, c ≤ 31 → ¬ (c = j) := fun c hc => by omega
    simp [Nat.testBit_shiftRight, Nat.testBit_or, testBit_topBit, stagePosition, e]
    and_intros
    all_goals (intro _; omega)

theorem foldl_range_apply (f : LedBuffer → Nat → LedBuffer) (ok : Nat → Nat → Bool)
    (key : Nat → Nat → Nat) (v : Nat → Nat → Nat) (base : Nat)
    (bound : Nat)
    (hf : ∀ lb k p i, k < bound → f lb k p i =
      if ok p i = true ∧ key p i = base + k then v p i else lb p i)
    (n : Nat) (hn : n ≤ bound) (lb : LedBuffer) (p i : Nat) :
    (List.range n).foldl f lb p i =
      if ok p i = true ∧ base ≤ key p i ∧ key p i < base + n then v p i else lb p i := by
  induction n with
  | zero =>
    have : ¬ (ok p i = true ∧ base ≤ key p i ∧ key p i < base + 0) := by omega
    rw [if_neg this]
    rfl
  | succ n ih =>
    rw [List.range_succ, List.foldl_append, List.foldl_cons, List.foldl_nil,
      hf _ _ _ _ (by omega), ih (by omega)]
    by_cases h1 : ok p i = true
    · by_cases h2 : key p i = base + n
      · have : base ≤ key p i ∧ key p i < base + (n + 1) := by omega
        simp [h1, h2]
      · by_cases h3 : base ≤ key p i ∧ key p i < base + n
        · have : base ≤ key p i ∧ key p i < base + (n + 1) := by omega
          simp [h1, h2, h3, this]
        · have : ¬ (base ≤ key p i ∧ key p i < base + (n + 1)) := by omega
          simp [h1, h2, h3, this]
    · simp [h1]

theorem div_mod_of_eq (K y r i : Nat) (hr : r < K) (h : i = y * K + r) :
    i / K = y ∧ i % K = r := by
  subst h
  constructor
  · rw [Nat.add_comm, Nat.add_mul_div_right _ _ (by omega), Nat.div_eq_of_lt hr]
    simp
  · rw [Nat.add_comm, Nat.add_mul_mod_self_right, Nat.mod_eq_of_lt hr]

theorem eq_div_mod (K i : Nat) : i = (i / K) * K + i % K := by
  rw [Nat.mul_comm]
  exact (Nat.div_add_mod i K).symm

theorem writeWord_apply (lb : LedBuffer) (bi idx v p i : Nat) :
    writeWord lb bi idx v p i = if p = bi ∧ i = idx then v else lb p i := rfl

theorem encodeRow_apply (cfg : Config) (buffer : Nat → Nat) (bi yModule : Nat)
    (lb : LedBuffer) (moduleY p i : Nat) (hm : moduleY < 20) :
    encodeRow cfg buffer bi yModule lb moduleY p i =
      if decide (p = bi) = true ∧ i / (cfg.COL_MODULES + 1) = yModule * 20 + moduleY then
        rowWord cfg buffer bi (i / (cfg.COL_MODULES + 1)) (i % (cfg.COL_MODULES + 1))
      else lb p i := by
  have hloop := foldl_range_apply
    (fun lb xModule =>
      writeWord lb bi ((yModule * 20 + moduleY) * (cfg.COL_MODULES + 1) + xModule)
        (pixelWord cfg buffer ((1 <<< bi) % 256)
          (((cfg.ROW_COUNT : Int) - 1 - ((yModule * 20 + moduleY : Nat) : Int))
            * (cfg.COL_COUNT : Int)) xModule))
    (fun p i => decide (p = bi ∧ (yModule * 20 + moduleY) * (cfg.COL_MODULES + 1) ≤ i))
    (fun _ i => i - (yModule * 20 + moduleY) * (cfg.COL_MODULES + 1))
    (fun _ i => pixelWord cfg buffer ((1 <<< bi) % 256)
          (((cfg.ROW_COUNT : Int) - 1 - ((yModule * 20 + moduleY : Nat) : Int))
            * (cfg.COL_COUNT : Int)) (i - (yModule * 20 + moduleY) * (cfg.COL_MODULES + 1)))
    0 cfg.COL_MODULES
    (by
      intro lb k p i _
      simp only [writeWord, decide_eq_true_eq, Nat.zero_add]
      by_cases h : p = bi ∧ i = (yModule * 20 + moduleY) * (cfg.COL_MODULES + 1) + k
      · have h2 : (p = bi ∧ (yModule * 20 + moduleY) * (cfg.COL_MODULES + 1) ≤ i) ∧
            i - (yModule * 20 + moduleY) * (cfg.COL_MODULES + 1) = k := by omega
        rw [if_pos h, if_pos h2, h2.2]
      · have h2 : ¬ ((p = bi ∧ (yModule * 20 + moduleY) * (cfg.COL_MODULES + 1) ≤ i) ∧
            i - (yModule * 20 + moduleY) * (cfg.COL_MODULES + 1) = k) := by omega
        rw [if_neg h, if_neg h2])
    cfg.COL_MODULES (Nat.le_refl _) lb p i
  unfold encodeRow
  rw [writeWord_apply, hloop]
  simp only [decide_eq_true_eq, Nat.zero_add]
  have hdm := eq_div_mod (cfg.COL_MODULES + 1) i
  have hlt : i % (cfg.COL_MODULES + 1) < cfg.COL_MODULES + 1 := Nat.mod_lt _ (by omega)
  have hy20 : (yModule * 20 + moduleY) / 20 = yModule ∧
      (yModule * 20 + moduleY) % 20 = moduleY := by omega
  generalize yModule * 20 + moduleY = y at *
  by_cases hq : p = bi ∧ i / (cfg.COL_MODULES + 1) = y
  · rw [if_pos hq]
    obtain ⟨hp, hq⟩ := hq
    rw [hq] at hdm
    by_cases hc : i % (cfg.COL_MODULES + 1) < cfg.COL_MODULES
    · have h1 : ¬ (p = bi ∧ i = y * (cfg.COL_MODULES + 1) + cfg.COL_MODULES) := by omega
      have h2 : (p = bi ∧ y * (cfg.COL_MODULES + 1) ≤ i) ∧
          0 ≤ i - y * (cfg.COL_MODULES + 1) ∧
          i - y * (cfg.COL_MODULES + 1) < cfg.COL_MODULES := by omega
      have h3 : i - y * (cfg.COL_MODULES + 1) = i % (cfg.COL_MODULES + 1) := by omega
      rw [if_neg h1, if_pos h2, h3, rowWord, if_pos hc, hq]
    · have h1 : p = bi ∧ i = y * (cfg.COL_MODULES + 1) + cfg.COL_MODULES := by omega
      rw [if_pos h1, rowWord, if_neg hc, hq, hy20.1, hy20.2]
  · rw [if_neg hq]
    have hne : ¬ (p = bi ∧ i = y * (cfg.COL_MODULES + 1) + cfg.COL_MODULES) := by
      rintro ⟨hp, hi⟩
      exact hq ⟨hp, (div_mod_of_eq _ y cfg.COL_MODULES i (by omega) hi).1⟩
    have hne2 : ¬ ((p = bi ∧ y * (cfg.COL_MODULES + 1) ≤ i) ∧
          0 ≤ i - y * (cfg.COL_MODULES + 1) ∧
          i - y * (cfg.COL_MODULES + 1) < cfg.COL_MODULES) := by
      rintro ⟨⟨hp, hle⟩, _, hlt2⟩
      exact hq ⟨hp, (div_mod_of_eq _ y (i - y * (cfg.COL_MODULES + 1)) i
        (by omega) (by omega)).1⟩
    rw [if_neg hne, if_neg hne2]

theorem encodeModule_apply (cfg : Config) (buffer : Nat → Nat) (bi : Nat)
    (lb : LedBuffer) (yModule p i : Nat) :
    encodeModule cfg buffer bi lb yModule p i =
      if decide (p = bi) = true ∧ i / (cfg.COL_MODULES + 1) / 20 = 0 + yModule then
        rowWord cfg buffer bi (i / (cfg.COL_MODULES + 1)) (i % (cfg.COL_MODULES + 1))
      else lb p i := by
  unfold encodeModule
  rw [foldl_range_apply (encodeRow cfg buffer bi yModule) (fun p _ => decide (p = bi))
    (fun _ i => i / (cfg.COL_MODULES + 1))
    (fun _ i => rowWord cfg buffer bi (i / (cfg.COL_MODULES + 1)) (i % (cfg.COL_MODULES + 1)))
    (yModule * 20) 20
    (fun lb k p i hk => encodeRow_apply cfg buffer bi yModule lb k p i hk)
    20 (Nat.le_refl _) lb p i]
  by_cases h : decide (p = bi) = true ∧ i / (cfg.COL_MODULES + 1) / 20 = 0 + yModule
  · have h2 : decide (p = bi) = true ∧ yModule * 20 ≤ i / (cfg.COL_MODULES + 1) ∧
        i / (cfg.COL_MODULES + 1) < yModule * 20 + 20 := ⟨h.1, by omega⟩
    rw [if_pos h, if_pos h2]
  · have h2 : ¬ (decide (p = bi) = true ∧ yModule * 20 ≤ i / (cfg.COL_MODULES + 1) ∧
        i / (cfg.COL_MODULES + 1) < yModule * 20 + 20) := by
      rintro ⟨h3, h4⟩
      exact h ⟨h3, by omega⟩
    rw [if_neg h, if_neg h2]

theorem encodePlane_apply (cfg : Config) (buffer : Nat → Nat) (lb : LedBuffer)
    (bi p i : Nat) :
    encodePlane cfg buffer lb bi p i =
      if decide (i / (cfg.COL_MODULES + 1) / 20 < cfg.ROW_MODULES) = true ∧ p = 0 + bi then
        rowWord cfg buffer p (i / (cfg.COL_MODULES + 1)) (i % (cfg.COL_MODULES + 1))
      else lb p i := by
  unfold encodePlane
  rw [foldl_range_apply (encodeModule cfg buffer bi) (fun p _ => decide (p = bi))
    (fun _ i => i / (cfg.COL_MODULES + 1) / 20)
    (fun _ i => rowWord cfg buffer bi (i / (cfg.COL_MODULES + 1)) (i % (cfg.COL_MODULES + 1)))
    0 cfg.ROW_MODULES
    (fun lb k p i _ => encodeModule_apply cfg buffer bi lb k p i)
    cfg.ROW_MODULES (Nat.le_refl _) lb p i]
  by_cases h : decide (i / (cfg.COL_MODULES + 1) / 20 < cfg.ROW_MODULES) = true ∧ p = 0 + bi
  · have hp : p = bi := by omega
    have h1 := h.1
    rw [decide_eq_true_eq] at h1
    have h2 : decide (p = bi) = true ∧ 0 ≤ i / (cfg.COL_MODULES + 1) / 20 ∧
        i / (cfg.COL_MODULES + 1) / 20 < 0 + cfg.ROW_MODULES :=
      ⟨by simp [hp], Nat.zero_le _, by simpa using h1⟩
    rw [if_pos h, if_pos h2, hp]
  · have h2 : ¬ (decide (p = bi) = true ∧ 0 ≤ i / (cfg.COL_MODULES + 1) / 20 ∧
        i / (cfg.COL_MODULES + 1) / 20 < 0 + cfg.ROW_MODULES) := by
      rintro ⟨h3, _, h4⟩
      rw [decide_eq_true_eq] at h3
      exact h ⟨by rw [decide_eq_true_eq]; simpa using h4, by omega⟩
    rw [if_neg h, if_neg h2]

theorem ledBuffer_apply (cfg : Config) (buffer : Nat → Nat) (s : State) (p i : Nat) :
    (leds_set_framebuffer cfg buffer s).ledBuffer p i =
      if p < 8 ∧ i / (cfg.COL_MODULES + 1) / 20 < cfg.ROW_MODULES then
        rowWord cfg buffer p (i / (cfg.COL_MODULES + 1)) (i % (cfg.COL_MODULES + 1))
      else s.ledBuffer p i := by
  show (List.range 8).foldl (encodePlane cfg buffer) s.ledBuffer p i = _
  rw [foldl_range_apply (encodePlane cfg buffer)
    (fun _ i => decide (i / (cfg.COL_MODULES + 1) / 20 < cfg.ROW_MODULES))
    (fun p _ => p)
    (fun p i => rowWord cfg buffer p (i / (cfg.COL_MODULES + 1)) (i % (cfg.COL_MODULES + 1)))
    0 8
    (fun lb k p i _ => encodePlane_apply cfg buffer lb k p i)
    8 (Nat.le_refl _) s.ledBuffer p i]
  by_cases h : p < 8 ∧ i / (cfg.COL_MODULES + 1) / 20 < cfg.ROW_MODULES
  · have h2 : decide (i / (cfg.COL_MODULES + 1) / 20 < cfg.ROW_MODULES) = true ∧
        0 ≤ p ∧ p < 0 + 8 := ⟨by rw [decide_eq_true_eq]; exact h.2, by omega⟩
    rw [if_pos h, if_pos h2]
  · have h2 : ¬ (decide (i / (cfg.COL_MODULES + 1) / 20 < cfg.ROW_MODULES) = true ∧
        0 ≤ p ∧ p < 0 + 8) := by
      rintro ⟨h3, _, h4⟩
      rw [decide_eq_true_eq] at h3
      exact h ⟨by omega, h3⟩
    rw [if_neg h, if_neg h2]

/-- The word at position `m` of output row `y` of plane `b` after
`leds_set_framebuffer`. -/
theorem ledBuffer_at (cfg : Config) (buffer : Nat → Nat) (s : State) (b y m : Nat)
    (hb : b < 8) (hy : y < 20 * cfg.ROW_MODULES) (hm : m ≤ cfg.COL_MODULES) :
    (leds_set_framebuffer cfg buffer s).ledBuffer b (y * (cfg.COL_MODULES + 1) + m) =
      rowWord cfg buffer b y m := by
  obtain ⟨h1, h2⟩ := div_mod_of_eq (cfg.COL_MODULES + 1) y m
    (y * (cfg.COL_MODULES + 1) + m) (by omega) rfl
  rw [ledBuffer_apply, h1, h2, if_pos ⟨hb, by omega⟩]

theorem pixelWord_testBit (cfg : Config) (buffer : Nat → Nat) (bitPosition : Nat)
    (off : Int) (m j : Nat) :
    (pixelWord cfg buffer bitPosition off m).testBit j =
      ((List.range 20).any (fun x =>
          decide (stagePosition x = j) && pixelBit buffer bitPosition (off + (m : Int) * 20) x)
        || (decide ((m : Int) = (cfg.COL_MODULES : Int) - 1) && decide (j = 31))) := by
  have h31 : (2147483648 : Nat) = 2 ^ 31 := by norm_num
  unfold pixelWord
  by_cases hm : (m : Int) = (cfg.COL_MODULES : Int) - 1
  · rw [if_pos hm, Nat.testBit_or, sample_testBit, decide_eq_true hm, Bool.true_and, h31,
      Nat.testBit_two_pow]
    congr 1
    by_cases hj : j = 31
    · simp [hj]
    · have : ¬ 31 = j := fun e => hj e.symm
      simp [hj, this]
  · rw [if_neg hm, sample_testBit, decide_eq_false hm, Bool.false_and, Bool.or_false]

theorem pixelBit_eq_testBit (buffer : Nat → Nat) (b : Nat) (off : Int) (x : Nat)
    (hb : b < 8) :
    pixelBit buffer ((1 <<< b) % 256) off x = (buffer (off + (x : Int)).toNat % 256).testBit b := by
  have hlt : 2 ^ b < 256 := by
    have : 2 ^ b < 2 ^ 8 := Nat.pow_lt_pow_right (by norm_num) hb
    simpa using this
  unfold pixelBit
  rw [Nat.one_shiftLeft, Nat.mod_eq_of_lt hlt, Nat.and_two_pow]
  cases h : (buffer (off + (x : Int)).toNat % 256).testBit b
  · simp
  · have : 2 ^ b ≠ 0 := by positivity
    simp [this]

theorem bufferIndex_toNat (RC CC y m x : Nat) (hy : y < RC) :
    (((RC : Int) - 1 - (y : Int)) * (CC : Int) + (m : Int) * 20 + (x : Int)).toNat =
      (RC - 1 - y) * CC + m * 20 + x := by
  have h1 : ((RC : Int) - 1 - (y : Int)) = ((RC - 1 - y : Nat) : Int) := by omega
  rw [h1]
  have h2 : (((RC - 1 - y : Nat) : Int) * (CC : Int) + (m : Int) * 20 + (x : Int)) =
      (((RC - 1 - y) * CC + m * 20 + x : Nat) : Int) := by push_cast; ring
  rw [h2, Int.toNat_ofNat]

theorem mask_testBit : ∀ j, j < 32 → (0x7F808081 : Nat).testBit j =
    decide (j = 0 ∨ j = 7 ∨ j = 15 ∨ j = 23 ∨ (24 ≤ j ∧ j ≤ 30)) := by decide

theorem pixelWord_and_mask (cfg : Config) (buffer : Nat → Nat) (bitPosition : Nat)
    (off : Int) (m : Nat) :
    pixelWord cfg buffer bitPosition off m &&& 0x7F808081 = 0 := by
  apply Nat.eq_of_testBit_eq
  intro j
  rw [Nat.testBit_and, Nat.zero_testBit, pixelWord_testBit]
  by_cases hj : j < 32
  · rw [mask_testBit j hj]
    interval_cases j <;> simp [range20, stagePosition]
  · have : (0x7F808081 : Nat).testBit j = false := by
      apply Nat.testBit_lt_two_pow
      calc (0x7F808081 : Nat) < 2 ^ 32 := by norm_num
        _ ≤ 2 ^ j := Nat.pow_le_pow_right (by norm_num) (by omega)
    rw [this, Bool.and_false]

theorem pixelWord_zero (cfg : Config) (bitPosition : Nat) (off : Int) (m : Nat) :
    pixelWord cfg (fun _ => 0) bitPosition off m =
      if m + 1 = cfg.COL_MODULES then 0x80000000 else 0 := by
  have hs : ∀ sample x, sampleStep (fun _ => 0) bitPosition (off + (m : Int) * 20) sample x =
      (if x = 0 ∨ x = 6 ∨ x = 13 then sample >>> 1 else sample) >>> 1 := by
    intro sample x
    simp [sampleStep]
  unfold pixelWord
  simp only [range20, List.foldl_cons, List.foldl_nil, hs]
  by_cases hm : m + 1 = cfg.COL_MODULES
  · have : (m : Int) = (cfg.COL_MODULES : Int) - 1 := by omega
    simp [hm, this]
  · have : ¬ (m : Int) = (cfg.COL_MODULES : Int) - 1 := by omega
    simp [hm, this]

theorem rowData_pulses (cfg : Config) (yModule moduleY : Nat) :
    rowData cfg yModule moduleY >>> 1 =
      if moduleY = 0 then (if yModule = 0 then 2 else 3)
      else if moduleY = 7 ∨ moduleY = 14 then 2 else 1 := by
  unfold rowData
  simp only [decide_eq_true_eq]
  split_ifs <;> first | decide | (exfalso; omega)

theorem rowData_flag (cfg : Config) (yModule moduleY : Nat) :
    (rowData cfg yModule moduleY).testBit 0 =
      decide (((yModule * 20 + moduleY : Nat) : Int) = (cfg.ROW_COUNT : Int) - 1) := by
  unfold rowData
  simp only [decide_eq_true_eq]
  split_ifs <;> simp_all

/-! ### Render loop -/

theorem pusherLoop_spec (cfg : Config) (plane : Nat → Nat) (hcm : cfg.COL_MODULES ≤ 255) :
    ∀ (n fuel x ptr : Nat) (fifo : List (Channel × Nat)),
      x + n = cfg.COL_MODULES → n < fuel →
      pusherLoop cfg plane fuel x ptr fifo =
        some (ptr + n,
          fifo ++ (List.range n).map (fun k => (Channel.pusher_sm, plane (ptr + k)))) := by
  intro n
  induction n with
  | zero =>
    intro fuel x ptr fifo hx hf
    obtain ⟨f, rfl⟩ : ∃ f, fuel = f + 1 := ⟨fuel - 1, by omega⟩
    have hnot : ¬ x < cfg.COL_MODULES := by omega
    simp [pusherLoop, hnot]
  | succ n ih =>
    intro fuel x ptr fifo hx hf
    obtain ⟨f, rfl⟩ : ∃ f, fuel = f + 1 := ⟨fuel - 1, by omega⟩
    have hlt : x < cfg.COL_MODULES := by omega
    have hmod : (x + 1) % 256 = x + 1 := Nat.mod_eq_of_lt (by omega)
    rw [pusherLoop, if_pos hlt, hmod, ih f (x + 1) (ptr + 1) _ (by omega) (by omega)]
    have hr : List.range (n + 1) = 0 :: (List.range n).map Nat.succ :=
      List.range_succ_eq_map n
    rw [hr]
    simp only [List.map_cons, List.map_map, List.append_assoc, List.singleton_append,
      Nat.add_zero]
    have hfun : ((fun k => (Channel.pusher_sm, plane (ptr + k))) ∘ Nat.succ) =
        (fun k => (Channel.pusher_sm, plane (ptr + 1 + k))) := by
      funext k
      simp only [Function.comp, Nat.succ_eq_add_one]
      rw [show ptr + (k + 1) = ptr + 1 + k by omega]
    rw [hfun, show ptr + 1 + n = ptr + (n + 1) by omega]

theorem pusherLoop_row (cfg : Config) (plane : Nat → Nat) (hcm : cfg.COL_MODULES ≤ 255)
    (fuel y : Nat) (fifo : List (Channel × Nat)) (hf : cfg.COL_MODULES < fuel) :
    pusherLoop cfg plane fuel 0 (y * (cfg.COL_MODULES + 1)) fifo =
      some (y * (cfg.COL_MODULES + 1) + cfg.COL_MODULES,
        fifo ++ (List.range cfg.COL_MODULES).map
          (fun x => (Channel.pusher_sm, plane (y * (cfg.COL_MODULES + 1) + x)))) :=
  pusherLoop_spec cfg plane hcm cfg.COL_MODULES fuel 0 _ fifo (by omega) hf

theorem rowLoop_spec (cfg : Config) (plane : Nat → Nat) (delayData innerFuel : Nat)
    (hrc : cfg.ROW_COUNT ≤ 255) (hcm : cfg.COL_MODULES ≤ 255)
    (hin : cfg.COL_MODULES < innerFuel) :
    ∀ (n fuel y : Nat) (fifo : List (Channel × Nat)),
      y + n = cfg.ROW_COUNT → n < fuel →
      rowLoop cfg plane delayData innerFuel fuel y (y * (cfg.COL_MODULES + 1)) fifo =
        some (fifo ++
          ((List.range n).map (fun k => rowEntries cfg plane delayData (y + k))).flatten) := by
  intro n
  induction n with
  | zero =>
    intro fuel y fifo hy hf
    obtain ⟨f, rfl⟩ : ∃ f, fuel = f + 1 := ⟨fuel - 1, by omega⟩
    have hnot : ¬ y < cfg.ROW_COUNT := by omega
    simp [rowLoop, hnot]
  | succ n ih =>
    intro fuel y fifo hy hf
    obtain ⟨f, rfl⟩ : ∃ f, fuel = f + 1 := ⟨fuel - 1, by omega⟩
    have hlt : y < cfg.ROW_COUNT := by omega
    have hmod : (y + 1) % 256 = y + 1 := Nat.mod_eq_of_lt (by omega)
    have hptr : y * (cfg.COL_MODULES + 1) + cfg.COL_MODULES + 1 =
        (y + 1) * (cfg.COL_MODULES + 1) := by ring
    rw [rowLoop, if_pos hlt, pusherLoop_row cfg plane hcm innerFuel y fifo hin]
    simp only []
    rw [hmod, hptr, ih f (y + 1) _ (by omega) (by omega)]
    have hr : List.range (n + 1) = 0 :: (List.range n).map Nat.succ :=
      List.range_succ_eq_map n
    rw [hr]
    have hfun : ((fun k => rowEntries cfg plane delayData (y + k)) ∘ Nat.succ) =
        (fun k => rowEntries cfg plane delayData (y + 1 + k)) := by
      funext k
      simp only [Function.comp, Nat.succ_eq_add_one]
      rw [show y + (k + 1) = y + 1 + k by omega]
    simp only [List.map_cons, List.map_map, List.flatten_cons, Nat.add_zero]
    rw [hfun]
    simp only [rowEntries, List.append_assoc]

theorem passEntries_length (cfg : Config) (plane : Nat → Nat) (delayData : Nat) :
    (passEntries cfg plane delayData).length = cfg.ROW_COUNT * (cfg.COL_MODULES + 2) := by
  unfold passEntries
  generalize cfg.ROW_COUNT = n
  induction n with
  | zero => simp
  | succ n ih =>
    rw [List.range_succ, List.map_append, List.flatten_append, List.length_append, ih]
    simp [rowEntries]
    ring

theorem leds_render_ready (cfg : Config) (fuel : Nat) (s : State)
    (hready : s.ledBufferReady = true)
    (hrc : cfg.ROW_COUNT ≤ 255) (hcm : cfg.COL_MODULES ≤ 255)
    (hf1 : cfg.ROW_COUNT < fuel) (hf2 : cfg.COL_MODULES < fuel) :
    leds_render cfg fuel s =
      some { s with
        fifo := s.fifo ++ passEntries cfg (s.ledBuffer s.brightnessPhase)
          ((brightnessPhaseDelays cfg).getD s.brightnessPhase 0)
        brightnessPhase := ((s.brightnessPhase + 1) % cfg.COLOR_BITS) % 256 } := by
  have h := rowLoop_spec cfg (s.ledBuffer s.brightnessPhase)
    ((brightnessPhaseDelays cfg).getD s.brightnessPhase 0) fuel hrc hcm hf2
    cfg.ROW_COUNT fuel 0 s.fifo (by omega) hf1
  simp only [Nat.zero_mul, Nat.zero_add] at h
  unfold leds_render
  simp only [hready, Bool.not_true, Bool.false_eq_true, if_false, h]
  rfl

theorem pusherLoop_diverges (cfg : Config) (plane : Nat → Nat) (hcm : 256 ≤ cfg.COL_MODULES) :
    ∀ (fuel x ptr : Nat) (fifo : List (Channel × Nat)), x < 256 →
      pusherLoop cfg plane fuel x ptr fifo = none := by
  intro fuel
  induction fuel with
  | zero => intro x ptr fifo _; rfl
  | succ f ih =>
    intro x ptr fifo hx
    rw [pusherLoop, if_pos (by omega)]
    exact ih _ _ _ (Nat.mod_lt _ (by norm_num))

theorem rowLoop_diverges (cfg : Config) (plane : Nat → Nat) (delayData innerFuel : Nat)
    (hrc : 256 ≤ cfg.ROW_COUNT) :
    ∀ (fuel y ptr : Nat) (fifo : List (Channel × Nat)), y < 256 →
      rowLoop cfg plane delayData innerFuel fuel y ptr fifo = none := by
  intro fuel
  induction fuel with
  | zero => intro y ptr fifo _; rfl
  | succ f ih =>
    intro y ptr fifo hy
    rw [rowLoop, if_pos (by omega)]
    cases pusherLoop cfg plane innerFuel 0 ptr fifo with
    | none => rfl
    | some r => exact ih _ _ _ (Nat.mod_lt _ (by norm_num))

theorem rowLoop_inner_diverges (cfg : Config) (plane : Nat → Nat)
    (delayData innerFuel : Nat) (hcm : 256 ≤ cfg.COL_MODULES) (hrc : 0 < cfg.ROW_COUNT)
    (fuel ptr : Nat) (fifo : List (Channel × Nat)) :
    rowLoop cfg plane delayData innerFuel fuel 0 ptr fifo = none := by
  cases fuel with
  | zero => rfl
  | succ f =>
    rw [rowLoop, if_pos hrc, pusherLoop_diverges cfg plane hcm innerFuel 0 ptr fifo (by norm_num)]

theorem leds_render_of_rowLoop_none (cfg : Config) (fuel : Nat) (s : State)
    (hready : s.ledBufferReady = true)
    (h : rowLoop cfg (s.ledBuffer s.brightnessPhase)
      ((brightnessPhaseDelays cfg).getD s.brightnessPhase 0) fuel fuel 0 0 s.fifo = none) :
    leds_render cfg fuel s = none := by
  unfold leds_render
  simp only [hready, Bool.not_true, Bool.false_eq_true, if_false, h]

theorem leds_render_not_ready (cfg : Config) (fuel : Nat) (s : State)
    (hready : s.ledBufferReady = false) : leds_render cfg fuel s = some s := by
  unfold leds_render
  simp [hready]

theorem renderPasses_phase (cfg : Config) (fuel : Nat)
    (hcb : cfg.COLOR_BITS = 8)
    (hrc : cfg.ROW_COUNT ≤ 255) (hcm : cfg.COL_MODULES ≤ 255)
    (hf1 : cfg.ROW_COUNT < fuel) (hf2 : cfg.COL_MODULES < fuel) :
    ∀ (k : Nat) (s : State), s.ledBufferReady = true → s.brightnessPhase < 8 →
      ∃ sk, renderPasses cfg fuel k s = some sk ∧
        sk.brightnessPhase = (s.brightnessPhase + k) % 8 := by
  intro k
  induction k with
  | zero =>
    intro s _ hp
    exact ⟨s, rfl, by simp only [Nat.add_zero]; omega⟩
  | succ k ih =>
    intro s hready hp
    have hstep := leds_render_ready cfg fuel s hready hrc hcm hf1 hf2
    obtain ⟨sk, h1, h2⟩ := ih
      { s with
        fifo := s.fifo ++ passEntries cfg (s.ledBuffer s.brightnessPhase)
          ((brightnessPhaseDelays cfg).getD s.brightnessPhase 0)
        brightnessPhase := ((s.brightnessPhase + 1) % cfg.COLOR_BITS) % 256 }
      hready (by simp only [hcb]; omega)
    refine ⟨sk, ?_, ?_⟩
    · rw [renderPasses, hstep]
      exact h1
    · rw [h2]
      simp only [hcb]
      omega

/-! ## Plane encoder: framing of the encoded buffer -/

/-- C1: after `leds_set_framebuffer`, when `ROW_COUNT = 20 * ROW_MODULES` and
`COL_COUNT >= 20 * COL_MODULES`, bit `stagePosition x` of the pixel word of
plane `b`, output row `y` and column group `m` is bit `b` of the raw pixel at
offset `(ROW_COUNT - 1 - y) * COL_COUNT + m * 20 + x`. -/
theorem leds_set_framebuffer_roundtrip (cfg : Config) (buffer : Nat → Nat) (s : State)
    (b y m x : Nat)
    (hrows : cfg.ROW_COUNT = 20 * cfg.ROW_MODULES)
    (_hcols : 20 * cfg.COL_MODULES ≤ cfg.COL_COUNT)
    (hb : b < 8) (hy : y < cfg.ROW_COUNT) (hm : m < cfg.COL_MODULES) (hx : x < 20) :
    ((leds_set_framebuffer cfg buffer s).ledBuffer b
        (y * (cfg.COL_MODULES + 1) + m)).testBit (stagePosition x) =
      (buffer ((cfg.ROW_COUNT - 1 - y) * cfg.COL_COUNT + m * 20 + x) % 256).testBit b := by
  rw [ledBuffer_at cfg buffer s b y m hb (by omega) (by omega), rowWord, if_pos hm,
    pixelWord_testBit]
  simp only [pixelBit_eq_testBit _ _ _ _ hb, bufferIndex_toNat _ _ _ _ _ hy]
  interval_cases x <;> simp [range20, stagePosition]

/-- C1 at plane 3, output row 5, column group 1, pixel 7 of the 40 by 40 panel. -/
theorem leds_set_framebuffer_roundtrip_witness :
    (panel40.ROW_COUNT = 20 * panel40.ROW_MODULES ∧
      20 * panel40.COL_MODULES ≤ panel40.COL_COUNT) ∧
    ((leds_set_framebuffer panel40 stripes initialState).ledBuffer 3
        (5 * (panel40.COL_MODULES + 1) + 1)).testBit (stagePosition 7) =
      (stripes ((panel40.ROW_COUNT - 1 - 5) * panel40.COL_COUNT + 1 * 20 + 7) % 256).testBit 3 :=
  ⟨by decide, leds_set_framebuffer_roundtrip panel40 stripes initialState 3 5 1 7
    (by decide) (by decide) (by decide) (by decide) (by decide) (by decide)⟩

/-- C2: after `leds_set_framebuffer`, when `ROW_COUNT = 20 * ROW_MODULES` and
`COL_MODULES >= 1`, bit 31 of the pixel word of column group `m` of a row is
set exactly when `m = COL_MODULES - 1`, and the word after the `COL_MODULES`
pixel words of the row is the row-control word of that row. -/
theorem leds_set_framebuffer_end_of_row (cfg : Config) (buffer : Nat → Nat) (s : State)
    (b y : Nat)
    (hrows : cfg.ROW_COUNT = 20 * cfg.ROW_MODULES)
    (_hcm : 1 ≤ cfg.COL_MODULES)
    (hb : b < 8) (hy : y < cfg.ROW_COUNT) :
    (∀ m, m < cfg.COL_MODULES →
      (((leds_set_framebuffer cfg buffer s).ledBuffer b
          (y * (cfg.COL_MODULES + 1) + m)).testBit 31 = true ↔ m = cfg.COL_MODULES - 1)) ∧
    (leds_set_framebuffer cfg buffer s).ledBuffer b
        (y * (cfg.COL_MODULES + 1) + cfg.COL_MODULES) = rowData cfg (y / 20) (y % 20) := by
  constructor
  · intro m hm
    rw [ledBuffer_at cfg buffer s b y m hb (by omega) (by omega), rowWord, if_pos hm,
      pixelWord_testBit]
    have hiff : ((m : Int) = (cfg.COL_MODULES : Int) - 1) ↔ m = cfg.COL_MODULES - 1 := by omega
    simp [range20, stagePosition, hiff]
  · rw [ledBuffer_at cfg buffer s b y cfg.COL_MODULES hb (by omega) (Nat.le_refl _), rowWord,
      if_neg (Nat.lt_irrefl _)]

/-- C2 at plane 0, output row 39 of the 40 by 40 panel. -/
theorem leds_set_framebuffer_end_of_row_witness :
    (panel40.ROW_COUNT = 20 * panel40.ROW_MODULES ∧ 1 ≤ panel40.COL_MODULES) ∧
    ((∀ m, m < panel40.COL_MODULES →
      (((leds_set_framebuffer panel40 stripes initialState).ledBuffer 0
          (39 * (panel40.COL_MODULES + 1) + m)).testBit 31 = true ↔
        m = panel40.COL_MODULES - 1)) ∧
    (leds_set_framebuffer panel40 stripes initialState).ledBuffer 0
        (39 * (panel40.COL_MODULES + 1) + panel40.COL_MODULES) =
      rowData panel40 (39 / 20) (39 % 20)) :=
  ⟨by decide, leds_set_framebuffer_end_of_row panel40 stripes initialState 0 39
    (by decide) (by decide) (by decide) (by decide)⟩

/-- C3, as stated, fails: on the 40 by 40 panel the first row of the second
row module (`yModule = 1`, `moduleY = 0`) gets the pulse count 3, not 2. -/
theorem rowPulses_second_module_counterexample :
    ((leds_set_framebuffer panel40 stripes initialState).ledBuffer 0
        ((1 * 20 + 0) * (panel40.COL_MODULES + 1) + panel40.COL_MODULES)) >>> 1 = 3 ∧
    ((leds_set_framebuffer panel40 stripes initialState).ledBuffer 0
        ((1 * 20 + 0) * (panel40.COL_MODULES + 1) + panel40.COL_MODULES)) >>> 1 ≠ 2 := by
  rw [ledBuffer_at panel40 stripes initialState 0 (1 * 20 + 0) panel40.COL_MODULES
    (by decide) (by decide) (by decide)]
  decide

/-- C3, amended: the pulse count in the row-control word of the row
`yModule * 20 + moduleY` is 3 on the first row of every row module but the
first (`moduleY = 0`, `yModule ≠ 0`), 2 on the first row of the first module
and on the internal rows 7 and 14 of every module, and 1 on every other row. -/
theorem leds_set_framebuffer_rowPulses (cfg : Config) (buffer : Nat → Nat) (s : State)
    (b yModule moduleY : Nat)
    (hb : b < 8) (hyM : yModule < cfg.ROW_MODULES) (hmY : moduleY < 20) :
    ((leds_set_framebuffer cfg buffer s).ledBuffer b
        ((yModule * 20 + moduleY) * (cfg.COL_MODULES + 1) + cfg.COL_MODULES)) >>> 1 =
      if moduleY = 0 then (if yModule = 0 then 2 else 3)
      else if moduleY = 7 ∨ moduleY = 14 then 2 else 1 := by
  have hy20 : (yModule * 20 + moduleY) / 20 = yModule ∧
      (yModule * 20 + moduleY) % 20 = moduleY := by omega
  rw [ledBuffer_at cfg buffer s b (yModule * 20 + moduleY) cfg.COL_MODULES hb (by omega)
    (Nat.le_refl _), rowWord, if_neg (Nat.lt_irrefl _), hy20.1, hy20.2]
  exact rowData_pulses cfg yModule moduleY

/-- C3, amended, at plane 2, `yModule = 1`, `moduleY = 0` of the 40 by 40 panel. -/
theorem leds_set_framebuffer_rowPulses_witness :
    (1 < panel40.ROW_MODULES) ∧
    ((leds_set_framebuffer panel40 stripes initialState).ledBuffer 2
        ((1 * 20 + 0) * (panel40.COL_MODULES + 1) + panel40.COL_MODULES)) >>> 1 =
      if (0 : Nat) = 0 then (if (1 : Nat) = 0 then 2 else 3)
      else if (0 : Nat) = 7 ∨ (0 : Nat) = 14 then 2 else 1 :=
  ⟨by decide, leds_set_framebuffer_rowPulses panel40 stripes initialState 2 1 0
    (by decide) (by decide) (by decide)⟩

/-- C4, as stated, fails: on the 40 by 40 panel the first-row flag of output
row 0 is clear, and the flag of output row 39 is set. -/
theorem firstRow_flag_counterexample :
    ((leds_set_framebuffer panel40 stripes initialState).ledBuffer 0
        (0 * (panel40.COL_MODULES + 1) + panel40.COL_MODULES)).testBit 0 = false ∧
    ((leds_set_framebuffer panel40 stripes initialState).ledBuffer 0
        (39 * (panel40.COL_MODULES + 1) + panel40.COL_MODULES)).testBit 0 = true := by
  rw [ledBuffer_at panel40 stripes initialState 0 0 panel40.COL_MODULES
      (by decide) (by decide) (by decide),
    ledBuffer_at panel40 stripes initialState 0 39 panel40.COL_MODULES
      (by decide) (by decide) (by decide)]
  decide

/-- C4, amended: when `ROW_COUNT = 20 * ROW_MODULES`, bit 0 of the row-control
word of output row `y` is set exactly when `y = ROW_COUNT - 1`, the last output
row (the one encoded from raw-frame row 0); so exactly one output row of each
plane carries the flag. -/
theorem leds_set_framebuffer_firstRow (cfg : Config) (buffer : Nat → Nat) (s : State)
    (b y : Nat)
    (hrows : cfg.ROW_COUNT = 20 * cfg.ROW_MODULES)
    (hb : b < 8) (hy : y < cfg.ROW_COUNT) :
    (((leds_set_framebuffer cfg buffer s).ledBuffer b
        (y * (cfg.COL_MODULES + 1) + cfg.COL_MODULES)).testBit 0 = true ↔
      y = cfg.ROW_COUNT - 1) ∧
    (∃! r, r < cfg.ROW_COUNT ∧
      ((leds_set_framebuffer cfg buffer s).ledBuffer b
        (r * (cfg.COL_MODULES + 1) + cfg.COL_MODULES)).testBit 0 = true) := by
  have key : ∀ r, r < cfg.ROW_COUNT →
      (((leds_set_framebuffer cfg buffer s).ledBuffer b
        (r * (cfg.COL_MODULES + 1) + cfg.COL_MODULES)).testBit 0 = true ↔
      r = cfg.ROW_COUNT - 1) := by
    intro r hr
    have hr20 : r / 20 * 20 + r % 20 = r := by omega
    rw [ledBuffer_at cfg buffer s b r cfg.COL_MODULES hb (by omega) (Nat.le_refl _), rowWord,
      if_neg (Nat.lt_irrefl _), rowData_flag, hr20, decide_eq_true_eq]
    omega
  refine ⟨key y hy, cfg.ROW_COUNT - 1, ⟨by omega, (key _ (by omega)).2 rfl⟩, ?_⟩
  rintro r ⟨hr, hflag⟩
  exact (key r hr).1 hflag

/-- C4, amended, at plane 7, output row 39 of the 40 by 40 panel. -/
theorem leds_set_framebuffer_firstRow_witness :
    panel40.ROW_COUNT = 20 * panel40.ROW_MODULES ∧
    ((((leds_set_framebuffer panel40 stripes initialState).ledBuffer 7
        (39 * (panel40.COL_MODULES + 1) + panel40.COL_MODULES)).testBit 0 = true ↔
      39 = panel40.ROW_COUNT - 1) ∧
    (∃! r, r < panel40.ROW_COUNT ∧
      ((leds_set_framebuffer panel40 stripes initialState).ledBuffer 7
        (r * (panel40.COL_MODULES + 1) + panel40.COL_MODULES)).testBit 0 = true)) :=
  ⟨by decide, leds_set_framebuffer_firstRow panel40 stripes initialState 7 39
    (by decide) (by decide) (by decide)⟩

/-- C10: after `leds_set_framebuffer`, when `ROW_COUNT = 20 * ROW_MODULES` and
`COL_COUNT >= 20 * COL_MODULES`, every pixel word has the bits 0, 7, 15, 23 and
24 to 30 clear; for the all-zero raw frame every pixel word is 0, except the
word of the last column group of each row, which is `0x80000000`. -/
theorem leds_set_framebuffer_placeholders (cfg : Config) (buffer : Nat → Nat) (s : State)
    (b y m : Nat)
    (hrows : cfg.ROW_COUNT = 20 * cfg.ROW_MODULES)
    (_hcols : 20 * cfg.COL_MODULES ≤ cfg.COL_COUNT)
    (hb : b < 8) (hy : y < cfg.ROW_COUNT) (hm : m < cfg.COL_MODULES) :
    (leds_set_framebuffer cfg buffer s).ledBuffer b (y * (cfg.COL_MODULES + 1) + m)
        &&& 0x7F808081 = 0 ∧
    (leds_set_framebuffer cfg (fun _ => 0) s).ledBuffer b (y * (cfg.COL_MODULES + 1) + m) =
      if m = cfg.COL_MODULES - 1 then 0x80000000 else 0 := by
  constructor
  · rw [ledBuffer_at cfg buffer s b y m hb (by omega) (by omega), rowWord, if_pos hm]
    exact pixelWord_and_mask _ _ _ _ _
  · rw [ledBuffer_at cfg (fun _ => 0) s b y m hb (by omega) (by omega), rowWord, if_pos hm,
      pixelWord_zero]
    by_cases h : m = cfg.COL_MODULES - 1
    · rw [if_pos h, if_pos (by omega)]
    · rw [if_neg h, if_neg (by omega)]

/-- C10 at plane 5, output row 12, column group 1 of the 40 by 40 panel. -/
theorem leds_set_framebuffer_placeholders_witness :
    (panel40.ROW_COUNT = 20 * panel40.ROW_MODULES ∧
      20 * panel40.COL_MODULES ≤ panel40.COL_COUNT) ∧
    ((leds_set_framebuffer panel40 stripes initialState).ledBuffer 5
        (12 * (panel40.COL_MODULES + 1) + 1) &&& 0x7F808081 = 0 ∧
    (leds_set_framebuffer panel40 (fun _ => 0) initialState).ledBuffer 5
        (12 * (panel40.COL_MODULES + 1) + 1) =
      if 1 = panel40.COL_MODULES - 1 then 0x80000000 else 0) :=
  ⟨by decide, leds_set_framebuffer_placeholders panel40 stripes initialState 5 12 1
    (by decide) (by decide) (by decide) (by decide) (by decide)⟩

/-! ## Render loop: one pass, phase scheduling, idling -/

/-- C5, as stated, fails: with 256 column modules the `uint8_t` counter of the
pixel-word loop never reaches `COL_MODULES`, so a call of `leds_render` on a
ready buffer with at most 255 rows does not return, whatever the fuel. -/
theorem leds_render_wide_counterexample :
    (leds_set_framebuffer widePanel stripes initialState).ledBufferReady = true ∧
    (leds_set_framebuffer widePanel stripes initialState).brightnessPhase
      < widePanel.COLOR_BITS ∧
    widePanel.COLOR_BITS = 8 ∧ widePanel.ROW_COUNT ≤ 255 ∧
    ∀ fuel, leds_render widePanel fuel
      (leds_set_framebuffer widePanel stripes initialState) = none := by
  refine ⟨rfl, by decide, rfl, by decide, ?_⟩
  intro fuel
  exact leds_render_of_rowLoop_none _ _ _ rfl
    (rowLoop_inner_diverges widePanel _ _ _ (by decide) (by decide) _ _ _)

/-- C5, amended: with `ledBufferReady` true, `brightnessPhase = p < COLOR_BITS = 8`,
`ROW_COUNT <= 255` and `COL_MODULES <= 255`, a call of `leds_render` returns
and appends exactly `ROW_COUNT * (COL_MODULES + 2)` entries: for each row
`y = 0, ..., ROW_COUNT - 1` in order, the `COL_MODULES` pixel words of the row
to the pixel channel, its row-control word to the row channel and the delay of
phase `p` to the delay channel; `ledBuffer` is unchanged. -/
theorem leds_render_pass (cfg : Config) (fuel : Nat) (s : State) (p : Nat)
    (hready : s.ledBufferReady = true)
    (hp : s.brightnessPhase = p) (_hpc : p < cfg.COLOR_BITS) (_hcb : cfg.COLOR_BITS = 8)
    (hrc : cfg.ROW_COUNT ≤ 255) (hcm : cfg.COL_MODULES ≤ 255)
    (hf1 : cfg.ROW_COUNT < fuel) (hf2 : cfg.COL_MODULES < fuel) :
    ∃ s1, leds_render cfg fuel s = some s1 ∧
      s1.fifo = s.fifo ++
        passEntries cfg (s.ledBuffer p) ((brightnessPhaseDelays cfg).getD p 0) ∧
      (passEntries cfg (s.ledBuffer p) ((brightnessPhaseDelays cfg).getD p 0)).length =
        cfg.ROW_COUNT * (cfg.COL_MODULES + 2) ∧
      s1.ledBuffer = s.ledBuffer := by
  subst hp
  exact ⟨_, leds_render_ready cfg fuel s hready hrc hcm hf1 hf2, rfl,
    passEntries_length _ _ _, rfl⟩

/-- C5, amended, on the 40 by 40 panel at phase 0 with fuel 256. -/
theorem leds_render_pass_witness :
    (panel40.ROW_COUNT ≤ 255 ∧ panel40.COL_MODULES ≤ 255 ∧ panel40.COLOR_BITS = 8) ∧
    ∃ s1, leds_render panel40 256 (leds_set_framebuffer panel40 stripes initialState) = some s1 ∧
      s1.fifo = (leds_set_framebuffer panel40 stripes initialState).fifo ++
        passEntries panel40 ((leds_set_framebuffer panel40 stripes initialState).ledBuffer 0)
          ((brightnessPhaseDelays panel40).getD 0 0) ∧
      (passEntries panel40 ((leds_set_framebuffer panel40 stripes initialState).ledBuffer 0)
          ((brightnessPhaseDelays panel40).getD 0 0)).length =
        panel40.ROW_COUNT * (panel40.COL_MODULES + 2) ∧
      s1.ledBuffer = (leds_set_framebuffer panel40 stripes initialState).ledBuffer :=
  ⟨by decide, leds_render_pass panel40 256 (leds_set_framebuffer panel40 stripes initialState) 0
    rfl rfl (by decide) rfl (by decide) (by decide) (by decide) (by decide)⟩

/-- C6, as stated, fails: with 260 rows the `uint8_t` row counter never
reaches `ROW_COUNT`, so a call of `leds_render` on a ready buffer does not
return and the phase is never advanced. -/
theorem leds_render_tall_counterexample :
    tallPanel.COLOR_BITS = 8 ∧
    (leds_set_framebuffer tallPanel stripes initialState).ledBufferReady = true ∧
    (leds_set_framebuffer tallPanel stripes initialState).brightnessPhase
      < tallPanel.COLOR_BITS ∧
    ∀ fuel, leds_render tallPanel fuel
      (leds_set_framebuffer tallPanel stripes initialState) = none := by
  refine ⟨rfl, rfl, by decide, ?_⟩
  intro fuel
  exact leds_render_of_rowLoop_none _ _ _ rfl
    (rowLoop_diverges tallPanel _ _ _ (by decide) _ _ _ _ (by decide))

/-- C6, amended: with `COLOR_BITS = 8`, `ledBufferReady` true, `ROW_COUNT <= 255`
and `COL_MODULES <= 255`, a call of `leds_render` returns and maps the phase
`p < COLOR_BITS` to `(p + 1) mod COLOR_BITS`; starting from phase 0, the phase
after `k` passes is `k mod COLOR_BITS`: it stays below `COLOR_BITS`, is `k` for
`k < COLOR_BITS`, and is 0 again first after `COLOR_BITS` passes. -/
theorem leds_render_phase (cfg : Config) (fuel : Nat) (s : State)
    (hcb : cfg.COLOR_BITS = 8)
    (hready : s.ledBufferReady = true)
    (_hp : s.brightnessPhase < cfg.COLOR_BITS)
    (hrc : cfg.ROW_COUNT ≤ 255) (hcm : cfg.COL_MODULES ≤ 255)
    (hf1 : cfg.ROW_COUNT < fuel) (hf2 : cfg.COL_MODULES < fuel) :
    (∃ s1, leds_render cfg fuel s = some s1 ∧
      s1.brightnessPhase = (s.brightnessPhase + 1) % cfg.COLOR_BITS ∧
      s1.brightnessPhase < cfg.COLOR_BITS) ∧
    (∀ k, ∃ sk, renderPasses cfg fuel k { s with brightnessPhase := 0 } = some sk ∧
      sk.brightnessPhase = k % cfg.COLOR_BITS ∧
      sk.brightnessPhase < cfg.COLOR_BITS ∧
      (k < cfg.COLOR_BITS → sk.brightnessPhase = k) ∧
      (0 < k → k < cfg.COLOR_BITS → sk.brightnessPhase ≠ 0) ∧
      (k = cfg.COLOR_BITS → sk.brightnessPhase = 0)) := by
  constructor
  · refine ⟨_, leds_render_ready cfg fuel s hready hrc hcm hf1 hf2, ?_, ?_⟩
    · show (s.brightnessPhase + 1) % cfg.COLOR_BITS % 256 = _
      rw [hcb]
      omega
    · show (s.brightnessPhase + 1) % cfg.COLOR_BITS % 256 < _
      rw [hcb]
      omega
  · intro k
    obtain ⟨sk, h1, h2⟩ := renderPasses_phase cfg fuel hcb hrc hcm hf1 hf2 k
      { s with brightnessPhase := 0 } hready (Nat.zero_lt_succ 7)
    have h3 : sk.brightnessPhase = k % 8 := by
      rw [h2]
      show (0 + k) % 8 = k % 8
      rw [Nat.zero_add]
    refine ⟨sk, h1, ?_, ?_, ?_, ?_, ?_⟩ <;> rw [hcb] <;> omega

/-- C6, amended, on the 40 by 40 panel from phase 0 with fuel 256. -/
theorem leds_render_phase_witness :
    (panel40.COLOR_BITS = 8 ∧ panel40.ROW_COUNT ≤ 255 ∧ panel40.COL_MODULES ≤ 255) ∧
    ((∃ s1, leds_render panel40 256 (leds_set_framebuffer panel40 stripes initialState)
        = some s1 ∧
      s1.brightnessPhase =
        ((leds_set_framebuffer panel40 stripes initialState).brightnessPhase + 1)
          % panel40.COLOR_BITS ∧
      s1.brightnessPhase < panel40.COLOR_BITS) ∧
    (∀ k, ∃ sk, renderPasses panel40 256 k
        { leds_set_framebuffer panel40 stripes initialState with brightnessPhase := 0 }
          = some sk ∧
      sk.brightnessPhase = k % panel40.COLOR_BITS ∧
      sk.brightnessPhase < panel40.COLOR_BITS ∧
      (k < panel40.COLOR_BITS → sk.brightnessPhase = k) ∧
      (0 < k → k < panel40.COLOR_BITS → sk.brightnessPhase ≠ 0) ∧
      (k = panel40.COLOR_BITS → sk.brightnessPhase = 0))) :=
  ⟨by decide, leds_render_phase panel40 256 (leds_set_framebuffer panel40 stripes initialState)
    rfl rfl (by decide) (by decide) (by decide) (by decide) (by decide)⟩

/-- C7: while `ledBufferReady` is false, a call of `leds_render` returns at
once with the state as it was (nothing enqueued, `brightnessPhase`, `ledBuffer`
and `ledBufferReady` unchanged), so any number of calls leaves the state as it
was; from the initial state the phase stays 0. -/
theorem leds_render_idle (cfg : Config) (fuel : Nat) (s : State)
    (hready : s.ledBufferReady = false) :
    leds_render cfg fuel s = some s ∧
    (∀ k, renderPasses cfg fuel k s = some s) ∧
    (∀ k, ∃ sk, renderPasses cfg fuel k initialState = some sk ∧ sk.brightnessPhase = 0) := by
  have hk : ∀ (t : State), t.ledBufferReady = false →
      ∀ k, renderPasses cfg fuel k t = some t := by
    intro t ht k
    induction k with
    | zero => rfl
    | succ k ih => rw [renderPasses, leds_render_not_ready cfg fuel t ht]; exact ih
  exact ⟨leds_render_not_ready cfg fuel s hready, hk s hready,
    fun k => ⟨initialState, hk initialState rfl k, rfl⟩⟩

/-- C7 on the 40 by 40 panel from the initial state, with no fuel at all. -/
theorem leds_render_idle_witness :
    initialState.ledBufferReady = false ∧
    (leds_render panel40 0 initialState = some initialState ∧
    (∀ k, renderPasses panel40 0 k initialState = some initialState) ∧
    (∀ k, ∃ sk, renderPasses panel40 0 k initialState = some sk ∧ sk.brightnessPhase = 0)) :=
  ⟨rfl, leds_render_idle panel40 0 initialState rfl⟩

/-! ## Delay table -/

/-- C8: for every cycle length `1 <= NS_PER_CYCLE <= 100` the eight entries of
`brightnessPhaseDelays` are strictly increasing. -/
theorem brightnessPhaseDelays_increasing (cfg : Config)
    (h1 : 1 ≤ cfg.NS_PER_CYCLE) (h2 : cfg.NS_PER_CYCLE ≤ 100) (i : Nat) (hi : i < 7) :
    (brightnessPhaseDelays cfg).getD i 0 < (brightnessPhaseDelays cfg).getD (i + 1) 0 := by
  obtain ⟨rc, cc, rm, cm, cb, n⟩ := cfg
  simp only at h1 h2
  simp only [brightnessPhaseDelays, NS_TO_DELAY]
  interval_cases n <;> interval_cases i <;> decide

/-- C8 at the cycle length 100 and the first two phases. -/
theorem brightnessPhaseDelays_increasing_witness :
    (1 ≤ ({ panel40 with NS_PER_CYCLE := 100 } : Config).NS_PER_CYCLE ∧
      ({ panel40 with NS_PER_CYCLE := 100 } : Config).NS_PER_CYCLE ≤ 100) ∧
    (brightnessPhaseDelays { panel40 with NS_PER_CYCLE := 100 }).getD 0 0 <
      (brightnessPhaseDelays { panel40 with NS_PER_CYCLE := 100 }).getD (0 + 1) 0 :=
  ⟨by decide, brightnessPhaseDelays_increasing { panel40 with NS_PER_CYCLE := 100 }
    (by decide) (by decide) 0 (by decide)⟩

/-- C9, as stated, fails: with the cycle length 1, which divides every entry,
the delay goes from 1500 at phase 4 to 6000 at phase 5, a ratio of 4, above
3.5. -/
theorem brightnessPhaseDelays_ratio_counterexample :
    (∀ ns ∈ [50, 100, 200, 500, 1500, 6000, 20000, 60000],
      nanosecondDelays.NS_PER_CYCLE ∣ ns) ∧
    ¬ (2 * (brightnessPhaseDelays nanosecondDelays).getD (4 + 1) 0 ≤
        7 * (brightnessPhaseDelays nanosecondDelays).getD 4 0) := by
  constructor
  · intro ns _
    exact Nat.one_dvd ns
  · decide

/-- C9, amended: for a cycle length that divides every nanosecond entry
exactly, the ratio between the delays of consecutive phases lies in `[2, 4]`:
`2 * d[i] <= d[i+1]` and `d[i+1] <= 4 * d[i]` for every `i` in `0..6`. -/
theorem brightnessPhaseDelays_ratio (cfg : Config)
    (hdiv : ∀ ns ∈ [50, 100, 200, 500, 1500, 6000, 20000, 60000], cfg.NS_PER_CYCLE ∣ ns)
    (i : Nat) (hi : i < 7) :
    2 * (brightnessPhaseDelays cfg).getD i 0 ≤ (brightnessPhaseDelays cfg).getD (i + 1) 0 ∧
    (brightnessPhaseDelays cfg).getD (i + 1) 0 ≤ 4 * (brightnessPhaseDelays cfg).getD i 0 := by
  obtain ⟨rc, cc, rm, cm, cb, n⟩ := cfg
  have h50 : n ∣ 50 := hdiv 50 (by simp)
  have hle : n ≤ 50 := Nat.le_of_dvd (by norm_num) h50
  have hpos : 0 < n := Nat.pos_of_dvd_of_pos h50 (by norm_num)
  simp only [brightnessPhaseDelays, NS_TO_DELAY]
  interval_cases n <;> first
    | (exfalso; revert h50; decide)
    | (interval_cases i <;> decide)

/-- C9, amended, at the cycle length 10 and the phases 4 and 5. -/
theorem brightnessPhaseDelays_ratio_witness :
    (∀ ns ∈ [50, 100, 200, 500, 1500, 6000, 20000, 60000],
      ({ panel40 with NS_PER_CYCLE := 10 } : Config).NS_PER_CYCLE ∣ ns) ∧
    (2 * (brightnessPhaseDelays { panel40 with NS_PER_CYCLE := 10 }).getD 4 0 ≤
      (brightnessPhaseDelays { panel40 with NS_PER_CYCLE := 10 }).getD (4 + 1) 0 ∧
    (brightnessPhaseDelays { panel40 with NS_PER_CYCLE := 10 }).getD (4 + 1) 0 ≤
      4 * (brightnessPhaseDelays { panel40 with NS_PER_CYCLE := 10 }).getD 4 0) :=
  ⟨by decide, brightnessPhaseDelays_ratio { panel40 with NS_PER_CYCLE := 10 }
    (by decide) 4 (by decide)⟩

end PicoLedMatrix
